import Mathlib

/-!
Verification of the `meme-observatory` configuration module
(`src/config-example.py`), a shallow embedding in Lean 4.

The Python module computes a set of filesystem path strings from a
single configurable `subreddit` identifier, creates four directories
(idempotently, via `os.makedirs(..., exist_ok=True)`), and defines a
few shared constants.  We embed:

* Python string operations (`str.startswith`, `str.endswith`,
  f-string concatenation) as functions on `String` / `List Char`;
* `posixpath.join` (the POSIX `os.path.join`) faithfully, including
  its treatment of absolute second components;
* the filesystem as explicit state: a set of existing directories
  (normalised to component lists), a set of files, and a set of
  paths where creation is denied (modelling OS permission refusal);
  `os.makedirs(d, exist_ok=True)` creates every missing prefix of
  `d`'s component path, succeeding silently on existing directories
  and failing with `PermissionDenied` on denied ones;
* the module body as `resolve` (the pure path computations) and
  `resolveRun` (the directory-creation loop threaded through the
  filesystem state).
-/

set_option autoImplicit false

namespace MemeObservatory

/-! ### Python string primitives -/

/-- Test that the character list `s` begins with `pre`
(embedding of Python `str.startswith` on character sequences):
`listStarts s pre`. -/
def listStarts : List Char → List Char → Bool
  | _, [] => true
  | [], _ :: _ => false
  | c :: cs, p :: ps => c == p && listStarts cs ps

/-- Python `s.startswith(pre)`. -/
def pyStartswith (s pre : String) : Bool :=
  listStarts s.data pre.data

/-- Python `s.endswith(post)`. -/
def pyEndswith (s post : String) : Bool :=
  listStarts s.data.reverse post.data.reverse

/-- POSIX `os.path.join(a, b)` (from CPython's `posixpath.join`):
if `b` starts with the separator the result is `b` (the first
component is discarded); otherwise `b` is appended, inserting a `/`
unless `a` is empty or already ends with `/`. -/
def posixJoin (a b : String) : String :=
  if pyStartswith b "/" then b
  else if a == "" || pyEndswith a "/" then a ++ b
  else a ++ "/" ++ b

/-! ### The configuration values (one definition per source line)

`subreddit` (`'dankmemes'` in the source, marked "change this!") and
`n_dimensions` are the two operator-configurable inputs, so each
derived value is a function of the one it uses.  -/

def working_dir (subreddit : String) : String :=
  "reddit_data/" ++ subreddit ++ "/"

def media_dir (subreddit : String) : String :=
  posixJoin (working_dir subreddit) "media"

def mosaic_dir (subreddit : String) : String :=
  posixJoin (working_dir subreddit) "mosaics"

def output_dir : String := "ouput/"

def image_lookup_file (subreddit : String) : String :=
  posixJoin (working_dir subreddit) "media.json.gz"

def logits_file (subreddit : String) : String :=
  posixJoin (working_dir subreddit) "image_features.csv.gz"

def knn_file (subreddit : String) : String :=
  posixJoin (working_dir subreddit) "knn.pkl"

def file_animation : String :=
  posixJoin output_dir "/doppler_mosaic.mp4"

def skip_hash : List String := ["NOHASH", "0000000000000000", "nan"]

def n_dimensions : Nat := 2048

def cols_conv_feats (n_dims : Nat) : List String :=
  (List.range n_dims).map (fun n => "conv_" ++ Nat.repr n)

/-- The PathSet / SentinelList / FeatureColumnNames bundle produced by
the spec's `resolve(identifier, dimensions)`. -/
structure Config where
  working_dir : String
  media_dir : String
  mosaic_dir : String
  output_dir : String
  image_lookup_file : String
  logits_file : String
  knn_file : String
  file_animation : String
  skip_hash : List String
  n_dimensions : Nat
  cols_conv_feats : List String
  deriving DecidableEq

/-- The pure part of `resolve`: all values the module computes, as
functions of the two configurable inputs. -/
def resolve (subreddit : String) (dims : Nat) : Config where
  working_dir := working_dir subreddit
  media_dir := media_dir subreddit
  mosaic_dir := mosaic_dir subreddit
  output_dir := output_dir
  image_lookup_file := image_lookup_file subreddit
  logits_file := logits_file subreddit
  knn_file := knn_file subreddit
  file_animation := file_animation
  skip_hash := skip_hash
  n_dimensions := dims
  cols_conv_feats := cols_conv_feats dims

/-! ### The filesystem model and `os.makedirs` -/

/-- Split a character list on `'/'` (Python path splitting). -/
def splitSlash : List Char → List (List Char)
  | [] => [[]]
  | c :: cs =>
    let r := splitSlash cs
    if c == '/' then [] :: r
    else (c :: r.headD []) :: r.tail

/-- The non-empty path components of a path string, as the OS
normalises them (empty segments from doubled, leading or trailing
slashes are discarded). -/
def pathComponents (p : String) : List String :=
  ((splitSlash p.data).filter (fun l => l != [])).map (fun l => String.mk l)

/-- The non-empty prefixes of a component list: the chain of
directories `os.makedirs` must ensure exist. -/
def prefixesOf (cs : List String) : List (List String) :=
  (List.range cs.length).map (fun i => cs.take (i + 1))

/-- Errors the spec's taxonomy names.  The model (like CPython's
`os.makedirs`) only ever raises `PermissionDenied`. -/
inductive PyError where
  | PermissionDenied
  | InvalidPath
  deriving DecidableEq

/-- Filesystem state: existing directories and files (paths normalised
to component lists) and the set of directory paths whose creation the
OS refuses. -/
structure FS where
  dirs : List (List String)
  files : List (List String × String)
  denied : List (List String)
  deriving DecidableEq

/-- One `mkdir` with `exist_ok` semantics: an existing directory is
success; a denied missing directory is `PermissionDenied`; otherwise
the directory is added. -/
def mkdirStep (fs : FS) (p : List String) : Except PyError FS :=
  if p ∈ fs.dirs then .ok fs
  else if p ∈ fs.denied then .error .PermissionDenied
  else .ok { fs with dirs := p :: fs.dirs }

/-- Create every directory in the list in order, stopping at the first
error (explicit state-passing form of the recursive creation inside
`os.makedirs`). -/
def mkdirAll (fs : FS) : List (List String) → Except PyError FS
  | [] => .ok fs
  | p :: ps =>
    match mkdirStep fs p with
    | .error e => .error e
    | .ok fs' => mkdirAll fs' ps

/-- Embedding of `os.makedirs(path, exist_ok=True)`: ensure every
prefix of the component path exists. -/
def makedirs (fs : FS) (path : String) : Except PyError FS :=
  mkdirAll fs (prefixesOf (pathComponents path))

/-- The list the source iterates over:
`[working_dir, media_dir, output_dir, mosaic_dir]`. -/
def dirList (subreddit : String) : List String :=
  [working_dir subreddit, media_dir subreddit, output_dir, mosaic_dir subreddit]

/-- The `for _dir in [...]: os.makedirs(_dir, exist_ok=True)` loop. -/
def runDirLoop (fs : FS) : List String → Except PyError FS
  | [] => .ok fs
  | d :: ds =>
    match makedirs fs d with
    | .error e => .error e
    | .ok fs' => runDirLoop fs' ds

/-- The whole module: compute the configuration, then create the four
directories, threading the filesystem state. -/
def resolveRun (subreddit : String) (dims : Nat) (fs : FS) :
    Except PyError (Config × FS) :=
  match runDirLoop fs (dirList subreddit) with
  | .error e => .error e
  | .ok fs' => .ok (resolve subreddit dims, fs')

/-- Every directory `resolveRun` is required to ensure exists: the four
listed directories together with all their parent chains. -/
def requiredDirs (subreddit : String) : List (List String) :=
  ((dirList subreddit).map (fun p => prefixesOf (pathComponents p))).flatten

/-! ### Spec-side definitions and auxiliary values used by the claims

The `*_concat` definitions follow the spec's words (plain string
concatenation `working_dir + suffix`); the refinement claim compares
them with the `os.path.join`-based source definitions.  `digitVal` and
`parseDec` parse decimal digit strings back to numbers.  `emptyFS` and
`deniedFS` are concrete filesystem states used as witnesses. -/

def media_dir_concat (s : String) : String := working_dir s ++ "media"

def mosaic_dir_concat (s : String) : String := working_dir s ++ "mosaics"

def image_lookup_file_concat (s : String) : String := working_dir s ++ "media.json.gz"

def logits_file_concat (s : String) : String := working_dir s ++ "image_features.csv.gz"

def knn_file_concat (s : String) : String := working_dir s ++ "knn.pkl"

def digitVal (c : Char) : Nat := c.toNat - 48

def parseDec (l : List Char) : Nat :=
  l.foldl (fun a c => 10 * a + digitVal c) 0

/-- The empty filesystem: no directories, no files, nothing denied. -/
def emptyFS : FS := ⟨[], [], []⟩

/-- A filesystem that refuses to create `reddit_data`. -/
def deniedFS : FS := ⟨[], [], [["reddit_data"]]⟩


/-! ### String and join lemmas -/

theorem slash_data : "/".data = ['/'] := rfl

theorem pyEndswith_append_slash (a : String) :
    pyEndswith (a ++ "/") "/" = true := by
  simp [pyEndswith, String.data_append, slash_data, List.reverse_append, listStarts]

theorem posixJoin_of_endsSlash (a b : String)
    (h1 : pyStartswith b "/" = false) (h2 : pyEndswith a "/" = true) :
    posixJoin a b = a ++ b := by
  simp [posixJoin, h1, h2]

theorem working_dir_endsSlash (s : String) :
    pyEndswith (working_dir s) "/" = true :=
  pyEndswith_append_slash ("reddit_data/" ++ s)

theorem media_dir_eq (s : String) :
    media_dir s = working_dir s ++ "media" :=
  posixJoin_of_endsSlash _ _ rfl (working_dir_endsSlash s)

theorem mosaic_dir_eq (s : String) :
    mosaic_dir s = working_dir s ++ "mosaics" :=
  posixJoin_of_endsSlash _ _ rfl (working_dir_endsSlash s)

theorem image_lookup_file_eq (s : String) :
    image_lookup_file s = working_dir s ++ "media.json.gz" :=
  posixJoin_of_endsSlash _ _ rfl (working_dir_endsSlash s)

theorem logits_file_eq (s : String) :
    logits_file s = working_dir s ++ "image_features.csv.gz" :=
  posixJoin_of_endsSlash _ _ rfl (working_dir_endsSlash s)

theorem knn_file_eq (s : String) :
    knn_file s = working_dir s ++ "knn.pkl" :=
  posixJoin_of_endsSlash _ _ rfl (working_dir_endsSlash s)

/-- Starting with a prefix is preserved by extending on the right. -/
theorem listStarts_append_self : ∀ l m : List Char, listStarts (l ++ m) l = true
  | [], _ => by simp [listStarts]
  | c :: cs, m => by simp [listStarts, listStarts_append_self cs m]

end MemeObservatory

namespace MemeObservatory

/-! ### Claims: pure path computations -/

/-- C1: for every non-empty identifier `s`, the `working_dir` produced by
`resolve(s, 2048)` equals `"reddit_data/" + s + "/"`. -/
theorem C1_working_dir (s : String) (h : s ≠ "") :
    (resolve s 2048).working_dir = "reddit_data/" ++ s ++ "/" := rfl

theorem C1_working_dir_witness :
    "dankmemes" ≠ "" ∧
      (resolve "dankmemes" 2048).working_dir = "reddit_data/" ++ "dankmemes" ++ "/" :=
  ⟨by decide, C1_working_dir "dankmemes" (by decide)⟩

/-- C2: `file_animation` path-joins `output_dir` with a component that
begins with a leading separator, and the join yields the absolute path
`"/doppler_mosaic.mp4"`, discarding `output_dir` (the result does not
lie inside `output_dir`); this holds for every identifier. -/
theorem C2_file_animation (s : String) (d : Nat) :
    pyStartswith "/doppler_mosaic.mp4" "/" = true ∧
      (resolve s d).file_animation = posixJoin (resolve s d).output_dir "/doppler_mosaic.mp4" ∧
      (resolve s d).file_animation = "/doppler_mosaic.mp4" ∧
      pyStartswith (resolve s d).file_animation "/" = true ∧
      pyStartswith (resolve s d).file_animation (resolve s d).output_dir = false :=
  ⟨rfl, rfl, rfl, rfl, rfl⟩

/-- C7: `output_dir` is the constant string `"ouput/"`, independent of
identifier and dimensions; two runs with different identifiers agree. -/
theorem C7_output_dir (s : String) (d : Nat) (s' : String) (d' : Nat) :
    (resolve s d).output_dir = "ouput/" ∧
      (resolve s d).output_dir = (resolve s' d').output_dir :=
  ⟨rfl, rfl⟩

/-- C8: `media_dir` and `mosaic_dir` always lie under `working_dir`:
`working_dir` is a path prefix of each (Python `str.startswith`). -/
theorem C8_subpaths (s : String) (d : Nat) :
    pyStartswith (resolve s d).media_dir (resolve s d).working_dir = true ∧
      pyStartswith (resolve s d).mosaic_dir (resolve s d).working_dir = true := by
  constructor
  · show pyStartswith (media_dir s) (working_dir s) = true
    rw [media_dir_eq]
    exact listStarts_append_self _ _
  · show pyStartswith (mosaic_dir s) (working_dir s) = true
    rw [mosaic_dir_eq]
    exact listStarts_append_self _ _

end MemeObservatory

namespace MemeObservatory

/-! ### C9: the join-based construction refines plain concatenation

The `*_concat` definitions (declared with the other definitions above)
follow the spec's words; the claim is that the `os.path.join`-based
source definitions coincide with them. -/

/-- C9 (implicit): because `working_dir` ends with a separator, the
`os.path.join`-based `media_dir`, `mosaic_dir`, `image_lookup_file`,
`logits_file` and `knn_file` equal plain concatenation
`working_dir + suffix`, with no doubled separator; in particular
`media_dir = "reddit_data/" + s + "/media"`. -/
theorem C9_join_is_concat (s : String) :
    media_dir s = media_dir_concat s ∧
      mosaic_dir s = mosaic_dir_concat s ∧
      image_lookup_file s = image_lookup_file_concat s ∧
      logits_file s = logits_file_concat s ∧
      knn_file s = knn_file_concat s ∧
      media_dir s = "reddit_data/" ++ s ++ "/media" ∧
      image_lookup_file s = working_dir s ++ "media.json.gz" := by
  refine ⟨media_dir_eq s, mosaic_dir_eq s, image_lookup_file_eq s,
    logits_file_eq s, knn_file_eq s, ?_, image_lookup_file_eq s⟩
  rw [media_dir_eq]
  apply String.ext
  simp [working_dir, String.data_append, List.append_assoc]

end MemeObservatory

namespace MemeObservatory

/-! ### Decimal representation: `Nat.repr` is injective

`cols_conv_feats` labels columns with `"conv_" ++ Nat.repr n`; to show
the labels are pairwise distinct we parse the decimal digits back. -/

theorem digitVal_digitChar : ∀ d : Nat, d < 10 → digitVal (Nat.digitChar d) = d := by
  decide

theorem toDigitsCore_append10 : ∀ (f n : Nat) (ds : List Char),
    Nat.toDigitsCore 10 f n ds = Nat.toDigitsCore 10 f n [] ++ ds := by
  intro f
  induction f with
  | zero => intro n ds; simp [Nat.toDigitsCore]
  | succ f ih =>
    intro n ds
    by_cases h : n / 10 = 0
    · simp [Nat.toDigitsCore, h]
    · simp only [Nat.toDigitsCore, h, if_false]
      rw [ih (n / 10) (Nat.digitChar (n % 10) :: ds),
        ih (n / 10) [Nat.digitChar (n % 10)], List.append_assoc]
      rfl

theorem parse_toDigitsCore : ∀ (f n : Nat), n < f →
    parseDec (Nat.toDigitsCore 10 f n []) = n := by
  intro f
  induction f with
  | zero => intro n h; omega
  | succ f ih =>
    intro n hn
    by_cases h : n / 10 = 0
    · have h10 : n < 10 := by omega
      simp [Nat.toDigitsCore, h, parseDec,
        digitVal_digitChar (n % 10) (by omega)]
      omega
    · have hlt : n / 10 < f := by omega
      simp only [Nat.toDigitsCore, h, if_false]
      rw [toDigitsCore_append10]
      simp [parseDec, List.foldl_append] at ih ⊢
      rw [ih (n / 10) hlt, digitVal_digitChar (n % 10) (by omega)]
      omega

theorem Nat_repr_inj {m n : Nat} (h : Nat.repr m = Nat.repr n) : m = n := by
  have hd : Nat.toDigitsCore 10 (m + 1) m [] = Nat.toDigitsCore 10 (n + 1) n [] :=
    congrArg String.data h
  have hm := parse_toDigitsCore (m + 1) m (Nat.lt_succ_self m)
  have hn := parse_toDigitsCore (n + 1) n (Nat.lt_succ_self n)
  rw [← hm, ← hn, hd]

theorem conv_name_inj : Function.Injective (fun n : Nat => "conv_" ++ Nat.repr n) := by
  intro m n h
  apply Nat_repr_inj
  apply String.ext
  have hd := congrArg String.data h
  simp only [String.data_append] at hd
  exact List.append_cancel_left hd

/-- C3: for every identifier `s` and positive `d`, the feature column
list of `resolve(s, d)` has length exactly `d`, its `i`-th entry is
`"conv_" ++ i` for every `i < d`, and the default dimensionality
constant of the module is 2048. -/
theorem C3_cols (s : String) (d i : Nat) (hd : 0 < d) (hi : i < d) :
    (resolve s d).cols_conv_feats.length = d ∧
      (resolve s d).cols_conv_feats[i]? = some ("conv_" ++ Nat.repr i) ∧
      n_dimensions = 2048 := by
  refine ⟨?_, ?_, rfl⟩
  · show (cols_conv_feats d).length = d
    simp [cols_conv_feats]
  · show (cols_conv_feats d)[i]? = some ("conv_" ++ Nat.repr i)
    simp [cols_conv_feats, List.getElem?_range hi]

theorem C3_cols_witness :
    0 < 4 ∧ 2 < 4 ∧
      ((resolve "dankmemes" 4).cols_conv_feats.length = 4 ∧
        (resolve "dankmemes" 4).cols_conv_feats[2]? = some ("conv_" ++ Nat.repr 2) ∧
        n_dimensions = 2048) :=
  ⟨by decide, by decide, C3_cols "dankmemes" 4 2 (by decide) (by decide)⟩

/-- C10 (implicit): for every positive `d` the column names
`conv_0 .. conv_{d-1}` are pairwise distinct — the feature column list
never contains a duplicate label. -/
theorem C10_cols_nodup (s : String) (d : Nat) (h : 0 < d) :
    ((resolve s d).cols_conv_feats).Nodup := by
  show (cols_conv_feats d).Nodup
  exact List.Nodup.map conv_name_inj (List.nodup_range d)

theorem C10_cols_nodup_witness :
    0 < 3 ∧ ((resolve "dankmemes" 3).cols_conv_feats).Nodup :=
  ⟨by decide, C10_cols_nodup "dankmemes" 3 (by decide)⟩

end MemeObservatory

namespace MemeObservatory

/-! ### Behaviour of `mkdirStep`, `mkdirAll`, `makedirs`, `runDirLoop` -/

theorem mkdirStep_ok_frame {fs fs' : FS} {p : List String}
    (h : mkdirStep fs p = .ok fs') :
    fs'.files = fs.files ∧ fs'.denied = fs.denied := by
  unfold mkdirStep at h
  split at h
  · injection h with h
    subst h
    exact ⟨rfl, rfl⟩
  · split at h
    · cases h
    · injection h with h
      subst h
      exact ⟨rfl, rfl⟩

theorem mkdirStep_ok_dirs {fs fs' : FS} {p : List String}
    (h : mkdirStep fs p = .ok fs') :
    ∀ q, q ∈ fs'.dirs ↔ q ∈ fs.dirs ∨ q = p := by
  intro q
  unfold mkdirStep at h
  split at h
  · injection h with h
    subst h
    rename_i hp
    constructor
    · exact fun hq => Or.inl hq
    · rintro (hq | rfl)
      · exact hq
      · exact hp
  · split at h
    · cases h
    · injection h with h
      subst h
      simp only [List.mem_cons]
      tauto

theorem mkdirStep_error_kind {fs : FS} {p : List String} {e : PyError}
    (h : mkdirStep fs p = .error e) : e = .PermissionDenied := by
  unfold mkdirStep at h
  split at h
  · cases h
  · split at h
    · injection h with h
      exact h.symm
    · cases h

theorem mkdirStep_of_mem {fs : FS} {p : List String} (hp : p ∈ fs.dirs) :
    mkdirStep fs p = .ok fs := by
  unfold mkdirStep
  simp [hp]

theorem mkdirAll_ok_frame : ∀ (L : List (List String)) (fs fs' : FS),
    mkdirAll fs L = .ok fs' → fs'.files = fs.files ∧ fs'.denied = fs.denied := by
  intro L
  induction L with
  | nil =>
    intro fs fs' h
    injection h with h
    subst h
    exact ⟨rfl, rfl⟩
  | cons p ps ih =>
    intro fs fs' h
    unfold mkdirAll at h
    cases hstep : mkdirStep fs p with
    | error e => rw [hstep] at h; cases h
    | ok fs1 =>
      rw [hstep] at h
      have h1 := mkdirStep_ok_frame hstep
      have h2 := ih fs1 fs' h
      exact ⟨h2.1.trans h1.1, h2.2.trans h1.2⟩

theorem mkdirAll_ok_dirs : ∀ (L : List (List String)) (fs fs' : FS),
    mkdirAll fs L = .ok fs' →
    ∀ q, q ∈ fs'.dirs ↔ q ∈ fs.dirs ∨ q ∈ L := by
  intro L
  induction L with
  | nil =>
    intro fs fs' h q
    injection h with h
    subst h
    simp
  | cons p ps ih =>
    intro fs fs' h q
    unfold mkdirAll at h
    cases hstep : mkdirStep fs p with
    | error e => rw [hstep] at h; cases h
    | ok fs1 =>
      rw [hstep] at h
      have h1 := mkdirStep_ok_dirs hstep q
      have h2 := ih fs1 fs' h q
      simp only [List.mem_cons]
      rw [h2, h1]
      tauto

theorem mkdirAll_of_all_mem : ∀ (L : List (List String)) (fs : FS),
    (∀ p ∈ L, p ∈ fs.dirs) → mkdirAll fs L = .ok fs := by
  intro L
  induction L with
  | nil => intro fs _; rfl
  | cons p ps ih =>
    intro fs h
    unfold mkdirAll
    rw [mkdirStep_of_mem (h p (List.mem_cons_self p ps))]
    exact ih fs fun q hq => h q (List.mem_cons_of_mem p hq)

theorem mkdirAll_error_kind : ∀ (L : List (List String)) (fs : FS) (e : PyError),
    mkdirAll fs L = .error e → e = .PermissionDenied := by
  intro L
  induction L with
  | nil => intro fs e h; cases h
  | cons p ps ih =>
    intro fs e h
    unfold mkdirAll at h
    cases hstep : mkdirStep fs p with
    | error e' =>
      rw [hstep] at h
      injection h with h
      subst h
      exact mkdirStep_error_kind hstep
    | ok fs1 =>
      rw [hstep] at h
      exact ih fs1 e h

theorem runDirLoop_ok_frame : ∀ (ds : List String) (fs fs' : FS),
    runDirLoop fs ds = .ok fs' → fs'.files = fs.files ∧ fs'.denied = fs.denied := by
  intro ds
  induction ds with
  | nil =>
    intro fs fs' h
    injection h with h
    subst h
    exact ⟨rfl, rfl⟩
  | cons p ps ih =>
    intro fs fs' h
    unfold runDirLoop at h
    cases hstep : makedirs fs p with
    | error e => rw [hstep] at h; cases h
    | ok fs1 =>
      rw [hstep] at h
      have h1 := mkdirAll_ok_frame _ _ _ hstep
      have h2 := ih fs1 fs' h
      exact ⟨h2.1.trans h1.1, h2.2.trans h1.2⟩

theorem runDirLoop_ok_dirs : ∀ (ds : List String) (fs fs' : FS),
    runDirLoop fs ds = .ok fs' →
    ∀ q, q ∈ fs'.dirs ↔
      q ∈ fs.dirs ∨ ∃ p ∈ ds, q ∈ prefixesOf (pathComponents p) := by
  intro ds
  induction ds with
  | nil =>
    intro fs fs' h q
    injection h with h
    subst h
    simp
  | cons p ps ih =>
    intro fs fs' h q
    unfold runDirLoop at h
    cases hstep : makedirs fs p with
    | error e => rw [hstep] at h; cases h
    | ok fs1 =>
      rw [hstep] at h
      have h1 := mkdirAll_ok_dirs _ _ _ hstep q
      have h2 := ih fs1 fs' h q
      simp only [List.mem_cons]
      rw [h2, h1]
      constructor
      · rintro ((hq | hq) | ⟨r, hr, hq⟩)
        · exact Or.inl hq
        · exact Or.inr ⟨p, Or.inl rfl, hq⟩
        · exact Or.inr ⟨r, Or.inr hr, hq⟩
      · rintro (hq | ⟨r, (rfl | hr), hq⟩)
        · exact Or.inl (Or.inl hq)
        · exact Or.inl (Or.inr hq)
        · exact Or.inr ⟨r, hr, hq⟩

theorem runDirLoop_of_all_mem : ∀ (ds : List String) (fs : FS),
    (∀ p ∈ ds, ∀ q ∈ prefixesOf (pathComponents p), q ∈ fs.dirs) →
    runDirLoop fs ds = .ok fs := by
  intro ds
  induction ds with
  | nil => intro fs _; rfl
  | cons p ps ih =>
    intro fs h
    unfold runDirLoop
    rw [show makedirs fs p = .ok fs from
      mkdirAll_of_all_mem _ _ (h p (List.mem_cons_self p ps))]
    exact ih fs fun r hr => h r (List.mem_cons_of_mem p hr)

theorem runDirLoop_error_kind : ∀ (ds : List String) (fs : FS) (e : PyError),
    runDirLoop fs ds = .error e → e = .PermissionDenied := by
  intro ds
  induction ds with
  | nil => intro fs e h; cases h
  | cons p ps ih =>
    intro fs e h
    unfold runDirLoop at h
    cases hstep : makedirs fs p with
    | error e' =>
      rw [hstep] at h
      injection h with h
      subst h
      exact mkdirAll_error_kind _ _ _ hstep
    | ok fs1 =>
      rw [hstep] at h
      exact ih fs1 e h

end MemeObservatory

namespace MemeObservatory

/-! ### Claims about the directory-creation run -/

/-- C5: `resolve` is idempotent: if a run from filesystem state `fs`
succeeds, producing configuration `c` and state `fs'`, then a second
run from `fs'` also succeeds (existing directories are treated as
success) and produces the identical configuration and state. -/
theorem C5_idempotent (s : String) (d : Nat) (fs : FS) (c : Config) (fs' : FS)
    (h : resolveRun s d fs = .ok (c, fs')) :
    resolveRun s d fs' = .ok (c, fs') := by
  unfold resolveRun at h ⊢
  cases hrun : runDirLoop fs (dirList s) with
  | error e => rw [hrun] at h; cases h
  | ok fs1 =>
    rw [hrun] at h
    injection h with h
    have hc : c = resolve s d := (congrArg Prod.fst h).symm
    have hfs : fs' = fs1 := (congrArg Prod.snd h).symm
    subst hc
    subst hfs
    have hmem := runDirLoop_ok_dirs _ _ _ hrun
    rw [runDirLoop_of_all_mem (dirList s) fs' ?_]
    intro p hp q hq
    exact (hmem q).mpr (Or.inr ⟨p, hp, hq⟩)

theorem C5_idempotent_witness :
    resolveRun "dankmemes" 4 emptyFS =
        .ok (resolve "dankmemes" 4,
          ⟨[["reddit_data", "dankmemes", "mosaics"], ["ouput"],
            ["reddit_data", "dankmemes", "media"], ["reddit_data", "dankmemes"],
            ["reddit_data"]], [], []⟩) ∧
      resolveRun "dankmemes" 4
          ⟨[["reddit_data", "dankmemes", "mosaics"], ["ouput"],
            ["reddit_data", "dankmemes", "media"], ["reddit_data", "dankmemes"],
            ["reddit_data"]], [], []⟩ =
        .ok (resolve "dankmemes" 4,
          ⟨[["reddit_data", "dankmemes", "mosaics"], ["ouput"],
            ["reddit_data", "dankmemes", "media"], ["reddit_data", "dankmemes"],
            ["reddit_data"]], [], []⟩) :=
  ⟨rfl, C5_idempotent "dankmemes" 4 emptyFS _ _ rfl⟩

/-- C4 counterexample: the identifier `"a/b"` contains `'/'`, a
character illegal in a single path segment on the host (POSIX)
filesystem, yet `resolve` does not fail with `InvalidPath` — the run
succeeds, with the slash acting as a path separator (nested
directories `reddit_data/a/b/...` are created). -/
theorem C4_counterexample :
    "a/b".data.contains '/' = true ∧
      resolveRun "a/b" 2048 emptyFS =
        .ok (resolve "a/b" 2048,
          ⟨[["reddit_data", "a", "b", "mosaics"], ["ouput"],
            ["reddit_data", "a", "b", "media"], ["reddit_data", "a", "b"],
            ["reddit_data", "a"], ["reddit_data"]], [], []⟩) :=
  ⟨by decide, rfl⟩

/-- C4 (amended): the only failure mode of `resolve` is
`PermissionDenied`, raised when directory creation is disallowed; no
`InvalidPath` error exists — identifiers containing the path-segment
separator `'/'` are accepted and simply produce nested directories. -/
theorem C4_errors (s : String) (d : Nat) (fs : FS) (e : PyError)
    (h : resolveRun s d fs = .error e) : e = .PermissionDenied := by
  unfold resolveRun at h
  cases hrun : runDirLoop fs (dirList s) with
  | error e' =>
    rw [hrun] at h
    injection h with h
    subst h
    exact runDirLoop_error_kind _ _ _ hrun
  | ok fs1 => rw [hrun] at h; cases h

theorem C4_errors_witness :
    resolveRun "dankmemes" 2048 deniedFS = .error .PermissionDenied ∧
      (PyError.PermissionDenied = PyError.PermissionDenied) :=
  ⟨rfl, C4_errors "dankmemes" 2048 deniedFS .PermissionDenied rfl⟩

end MemeObservatory

namespace MemeObservatory

/-! ### Decomposing path components of the derived paths -/

theorem splitSlash_ne_nil : ∀ l : List Char, splitSlash l ≠ [] := by
  intro l
  cases l with
  | nil => simp [splitSlash]
  | cons c cs =>
    by_cases h : c = '/' <;> simp [splitSlash, h]

theorem splitSlash_noSlash : ∀ seg : List Char, '/' ∉ seg → splitSlash seg = [seg] := by
  intro seg
  induction seg with
  | nil => intro _; rfl
  | cons c cs ih =>
    intro h
    have hc : ¬(c = '/') := fun hc => h (hc ▸ List.mem_cons_self c cs)
    have hcs : '/' ∉ cs := fun hm => h (List.mem_cons_of_mem c hm)
    simp [splitSlash, hc, ih hcs]

theorem splitSlash_append_seg : ∀ (xs seg : List Char), '/' ∉ seg →
    splitSlash (xs ++ '/' :: seg) = splitSlash xs ++ [seg] := by
  intro xs
  induction xs with
  | nil =>
    intro seg h
    simp [splitSlash, splitSlash_noSlash seg h]
  | cons c cs ih =>
    intro seg h
    by_cases hc : c = '/'
    · subst hc
      simp [splitSlash, ih seg h]
    · obtain ⟨a, as, hsp⟩ := List.exists_cons_of_ne_nil (splitSlash_ne_nil cs)
      have h1 : splitSlash (cs ++ '/' :: seg) = a :: (as ++ [seg]) := by
        rw [ih seg h, hsp]
        rfl
      show splitSlash (c :: (cs ++ '/' :: seg)) = splitSlash (c :: cs) ++ [seg]
      simp [splitSlash, h1, hsp, hc]

theorem splitSlash_seg_cons : ∀ (seg rest : List Char), '/' ∉ seg →
    splitSlash (seg ++ '/' :: rest) = seg :: splitSlash rest := by
  intro seg
  induction seg with
  | nil => intro rest _; simp [splitSlash]
  | cons c cs ih =>
    intro rest h
    have hc : ¬(c = '/') := fun hc => h (hc ▸ List.mem_cons_self c cs)
    have hcs : '/' ∉ cs := fun hm => h (List.mem_cons_of_mem c hm)
    have h1 := ih rest hcs
    show splitSlash (c :: (cs ++ '/' :: rest)) = (c :: cs) :: splitSlash rest
    simp [splitSlash, h1, hc]

theorem data_mk (l : List Char) : (String.mk l).data = l := rfl

theorem working_dir_data (s : String) :
    (working_dir s).data = ("reddit_data/".data ++ s.data) ++ '/' :: [] := by
  simp [working_dir, String.data_append, slash_data]

/-- The components of `working_dir` are `reddit_data` followed by the
identifier's own components (the trailing empty segment is
discarded). -/
theorem pathComponents_working_dir (s : String) :
    pathComponents (working_dir s) = "reddit_data" :: pathComponents s := by
  have hx : "reddit_data/".data ++ s.data = "reddit_data".data ++ '/' :: s.data := rfl
  have hsl : ('/' : Char) ∉ "reddit_data".data := by decide
  unfold pathComponents
  rw [working_dir_data, splitSlash_append_seg _ _ (by simp), hx,
    splitSlash_seg_cons _ _ hsl]
  simp

/-- Appending a slash-free non-empty file name to `working_dir` appends
one component. -/
theorem pathComponents_workdir_append (s t : String)
    (h1 : t.data ≠ []) (h2 : '/' ∉ t.data) :
    pathComponents (working_dir s ++ t) =
      pathComponents (working_dir s) ++ [t] := by
  have hdat : (working_dir s ++ t).data =
      ("reddit_data/".data ++ s.data) ++ '/' :: t.data := by
    simp [working_dir, String.data_append, slash_data]
  have ht : String.mk t.data = t := by cases t; rfl
  unfold pathComponents
  rw [hdat, splitSlash_append_seg _ _ h2, working_dir_data,
    splitSlash_append_seg _ _ (by simp)]
  simp [h1, ht]

theorem pathComponents_media_dir (s : String) :
    pathComponents (media_dir s) = pathComponents (working_dir s) ++ ["media"] := by
  rw [media_dir_eq]
  exact pathComponents_workdir_append s "media" (by decide) (by decide)

theorem pathComponents_mosaic_dir (s : String) :
    pathComponents (mosaic_dir s) = pathComponents (working_dir s) ++ ["mosaics"] := by
  rw [mosaic_dir_eq]
  exact pathComponents_workdir_append s "mosaics" (by decide) (by decide)

theorem pathComponents_image_lookup_file (s : String) :
    pathComponents (image_lookup_file s) =
      pathComponents (working_dir s) ++ ["media.json.gz"] := by
  rw [image_lookup_file_eq]
  exact pathComponents_workdir_append s "media.json.gz" (by decide) (by decide)

theorem pathComponents_logits_file (s : String) :
    pathComponents (logits_file s) =
      pathComponents (working_dir s) ++ ["image_features.csv.gz"] := by
  rw [logits_file_eq]
  exact pathComponents_workdir_append s "image_features.csv.gz" (by decide) (by decide)

theorem pathComponents_knn_file (s : String) :
    pathComponents (knn_file s) =
      pathComponents (working_dir s) ++ ["knn.pkl"] := by
  rw [knn_file_eq]
  exact pathComponents_workdir_append s "knn.pkl" (by decide) (by decide)

end MemeObservatory

namespace MemeObservatory

/-! ### Membership in `prefixesOf` and in `requiredDirs` -/

theorem mem_prefixesOf {q : List String} {cs : List String} :
    q ∈ prefixesOf cs ↔ ∃ k, k < cs.length ∧ cs.take (k + 1) = q := by
  simp [prefixesOf]

theorem notMem_self_append (cs : List String) (x : String) :
    cs ++ [x] ∉ prefixesOf cs := by
  intro h
  obtain ⟨k, hk, he⟩ := mem_prefixesOf.mp h
  have hl := congrArg List.length he
  simp [List.length_take] at hl
  omega

theorem self_mem_prefixesOf {cs : List String} (h : cs ≠ []) :
    cs ∈ prefixesOf cs := by
  have hpos : 0 < cs.length := List.length_pos.mpr h
  refine mem_prefixesOf.mpr ⟨cs.length - 1, by omega, ?_⟩
  rw [show cs.length - 1 + 1 = cs.length by omega, List.take_length]

theorem head?_of_mem_prefixesOf {q cs : List String} (h : q ∈ prefixesOf cs) :
    q.head? = cs.head? := by
  obtain ⟨k, hk, he⟩ := mem_prefixesOf.mp h
  subst he
  cases cs with
  | nil => rfl
  | cons c t => simp [List.take_succ_cons]

theorem prefixesOf_append_single (cs : List String) (x : String) :
    prefixesOf (cs ++ [x]) = prefixesOf cs ++ [cs ++ [x]] := by
  unfold prefixesOf
  rw [List.length_append, List.length_singleton, List.range_succ, List.map_append]
  congr 1
  · apply List.map_congr_left
    intro i hi
    rw [List.mem_range] at hi
    rw [List.take_append_eq_append_take,
      show i + 1 - cs.length = 0 by omega, List.take_zero, List.append_nil]
  · simp [List.take_append_eq_append_take]

set_option maxHeartbeats 1000000 in
theorem mem_requiredDirs_iff {s : String} {q : List String} :
    q ∈ requiredDirs s ↔
      q ∈ prefixesOf (pathComponents (working_dir s)) ∨
        q = pathComponents (working_dir s) ++ ["media"] ∨
        q = ["ouput"] ∨
        q = pathComponents (working_dir s) ++ ["mosaics"] := by
  have hm := pathComponents_media_dir s
  have hz := pathComponents_mosaic_dir s
  have ho : prefixesOf (pathComponents output_dir) = [["ouput"]] := rfl
  simp only [requiredDirs, dirList, List.map_cons, List.map_nil, List.flatten,
    List.append_nil, hm, hz, ho]
  rw [prefixesOf_append_single (pathComponents (working_dir s)) "media",
    prefixesOf_append_single (pathComponents (working_dir s)) "mosaics"]
  simp only [List.mem_append, List.mem_singleton]
  tauto

/-- A path of the form `working_dir components ++ [t]`, with `t` none
of `media`, `mosaics`, is never among the directories `resolveRun`
creates. -/
theorem workdir_file_notMem_requiredDirs (s : String) (t : String)
    (h3 : t ≠ "media") (h4 : t ≠ "mosaics") :
    pathComponents (working_dir s) ++ [t] ∉ requiredDirs s := by
  intro hmem
  rcases mem_requiredDirs_iff.mp hmem with hp | he | he | he
  · exact notMem_self_append _ _ hp
  · exact h3 (by simpa using List.append_cancel_left he)
  · rw [pathComponents_working_dir] at he
    simp at he
  · exact h4 (by simpa using List.append_cancel_left he)

theorem anim_notMem_requiredDirs (s : String) :
    ["doppler_mosaic.mp4"] ∉ requiredDirs s := by
  intro hmem
  rcases mem_requiredDirs_iff.mp hmem with hp | he | he | he
  · have := head?_of_mem_prefixesOf hp
    rw [pathComponents_working_dir] at this
    simp at this
  · rw [pathComponents_working_dir] at he
    simp at he
  · simp at he
  · rw [pathComponents_working_dir] at he
    simp at he

end MemeObservatory

namespace MemeObservatory

theorem mem_requiredDirs_exists {s : String} {q : List String} :
    q ∈ requiredDirs s ↔ ∃ p ∈ dirList s, q ∈ prefixesOf (pathComponents p) := by
  simp [requiredDirs, List.mem_flatten]

/-- C6: a successful run creates exactly the directories named by the
four directory-valued entries (with all their parent segments) and
nothing else: afterwards a directory exists iff it existed before or
is one of the required directories; all four directory entries exist;
the files and the permission table are untouched (no file contents are
written); and none of the file-valued entries (`image_lookup_file`,
`logits_file`, `knn_file`, `file_animation`) is among the directories
the run creates. -/
theorem C6_dirs_only (s : String) (d : Nat) (fs : FS) (c : Config) (fs' : FS)
    (q : List String) (h : resolveRun s d fs = .ok (c, fs')) :
    (q ∈ fs'.dirs ↔ q ∈ fs.dirs ∨ q ∈ requiredDirs s) ∧
      fs'.files = fs.files ∧
      fs'.denied = fs.denied ∧
      pathComponents c.working_dir ∈ fs'.dirs ∧
      pathComponents c.media_dir ∈ fs'.dirs ∧
      pathComponents c.output_dir ∈ fs'.dirs ∧
      pathComponents c.mosaic_dir ∈ fs'.dirs ∧
      pathComponents c.image_lookup_file ∉ requiredDirs s ∧
      pathComponents c.logits_file ∉ requiredDirs s ∧
      pathComponents c.knn_file ∉ requiredDirs s ∧
      pathComponents c.file_animation ∉ requiredDirs s := by
  unfold resolveRun at h
  cases hrun : runDirLoop fs (dirList s) with
  | error e => rw [hrun] at h; cases h
  | ok fs1 =>
    rw [hrun] at h
    injection h with h
    have hc : c = resolve s d := (congrArg Prod.fst h).symm
    have hfs : fs' = fs1 := (congrArg Prod.snd h).symm
    subst hc
    subst hfs
    have hmem := runDirLoop_ok_dirs _ _ _ hrun
    have hframe := runDirLoop_ok_frame _ _ _ hrun
    have hWne : pathComponents (working_dir s) ≠ [] := by
      rw [pathComponents_working_dir]
      simp
    have hiff : ∀ r, r ∈ fs'.dirs ↔ r ∈ fs.dirs ∨ r ∈ requiredDirs s := by
      intro r
      rw [hmem r, mem_requiredDirs_exists]
    have hanim : pathComponents (resolve s d).file_animation = ["doppler_mosaic.mp4"] := rfl
    refine ⟨hiff q, hframe.1, hframe.2, ?_, ?_, ?_, ?_, ?_, ?_, ?_, ?_⟩
    · exact (hiff _).mpr (Or.inr (mem_requiredDirs_iff.mpr
        (Or.inl (self_mem_prefixesOf hWne))))
    · exact (hiff _).mpr (Or.inr (mem_requiredDirs_iff.mpr
        (Or.inr (Or.inl (pathComponents_media_dir s)))))
    · exact (hiff _).mpr (Or.inr (mem_requiredDirs_iff.mpr
        (Or.inr (Or.inr (Or.inl rfl)))))
    · exact (hiff _).mpr (Or.inr (mem_requiredDirs_iff.mpr
        (Or.inr (Or.inr (Or.inr (pathComponents_mosaic_dir s))))))
    · show pathComponents (image_lookup_file s) ∉ requiredDirs s
      rw [pathComponents_image_lookup_file]
      exact workdir_file_notMem_requiredDirs s "media.json.gz" (by decide) (by decide)
    · show pathComponents (logits_file s) ∉ requiredDirs s
      rw [pathComponents_logits_file]
      exact workdir_file_notMem_requiredDirs s "image_features.csv.gz" (by decide) (by decide)
    · show pathComponents (knn_file s) ∉ requiredDirs s
      rw [pathComponents_knn_file]
      exact workdir_file_notMem_requiredDirs s "knn.pkl" (by decide) (by decide)
    · rw [hanim]
      exact anim_notMem_requiredDirs s

theorem C6_dirs_only_witness :
    resolveRun "dankmemes" 4 emptyFS =
        .ok (resolve "dankmemes" 4,
          ⟨[["reddit_data", "dankmemes", "mosaics"], ["ouput"],
            ["reddit_data", "dankmemes", "media"], ["reddit_data", "dankmemes"],
            ["reddit_data"]], [], []⟩) ∧
      ((["ouput"] ∈ (FS.mk
            [["reddit_data", "dankmemes", "mosaics"], ["ouput"],
              ["reddit_data", "dankmemes", "media"], ["reddit_data", "dankmemes"],
              ["reddit_data"]] [] []).dirs ↔
          ["ouput"] ∈ emptyFS.dirs ∨ ["ouput"] ∈ requiredDirs "dankmemes") ∧
        (FS.mk
            [["reddit_data", "dankmemes", "mosaics"], ["ouput"],
              ["reddit_data", "dankmemes", "media"], ["reddit_data", "dankmemes"],
              ["reddit_data"]] [] []).files = emptyFS.files ∧
        (FS.mk
            [["reddit_data", "dankmemes", "mosaics"], ["ouput"],
              ["reddit_data", "dankmemes", "media"], ["reddit_data", "dankmemes"],
              ["reddit_data"]] [] []).denied = emptyFS.denied ∧
        pathComponents (resolve "dankmemes" 4).working_dir ∈ (FS.mk
            [["reddit_data", "dankmemes", "mosaics"], ["ouput"],
              ["reddit_data", "dankmemes", "media"], ["reddit_data", "dankmemes"],
              ["reddit_data"]] [] []).dirs ∧
        pathComponents (resolve "dankmemes" 4).media_dir ∈ (FS.mk
            [["reddit_data", "dankmemes", "mosaics"], ["ouput"],
              ["reddit_data", "dankmemes", "media"], ["reddit_data", "dankmemes"],
              ["reddit_data"]] [] []).dirs ∧
        pathComponents (resolve "dankmemes" 4).output_dir ∈ (FS.mk
            [["reddit_data", "dankmemes", "mosaics"], ["ouput"],
              ["reddit_data", "dankmemes", "media"], ["reddit_data", "dankmemes"],
              ["reddit_data"]] [] []).dirs ∧
        pathComponents (resolve "dankmemes" 4).mosaic_dir ∈ (FS.mk
            [["reddit_data", "dankmemes", "mosaics"], ["ouput"],
              ["reddit_data", "dankmemes", "media"], ["reddit_data", "dankmemes"],
              ["reddit_data"]] [] []).dirs ∧
        pathComponents (resolve "dankmemes" 4).image_lookup_file ∉ requiredDirs "dankmemes" ∧
        pathComponents (resolve "dankmemes" 4).logits_file ∉ requiredDirs "dankmemes" ∧
        pathComponents (resolve "dankmemes" 4).knn_file ∉ requiredDirs "dankmemes" ∧
        pathComponents (resolve "dankmemes" 4).file_animation ∉ requiredDirs "dankmemes") :=
  ⟨rfl, C6_dirs_only "dankmemes" 4 emptyFS (resolve "dankmemes" 4)
    ⟨[["reddit_data", "dankmemes", "mosaics"], ["ouput"],
      ["reddit_data", "dankmemes", "media"], ["reddit_data", "dankmemes"],
      ["reddit_data"]], [], []⟩ ["ouput"] rfl⟩

end MemeObservatory
